import Mathlib

/-!
Verification of the stock-and-totals reconciliation engine of the
suministros application (Django apps `compras`, `ventas`, `inventario`).

The definitions below are a shallow embedding of the Python source:

* `compras/services.py`  : `redondear_moneda`, `_aplicar_delta_stock_seguro`,
  `calcular_y_guardar_totales_compra`, `aplicar_stock_despues_de_crear_compra`,
  `reconciliar_stock_tras_editar_compra`.
* `ventas/services.py`   : `_round2`, `_aplicar_delta_stock_seguro`,
  `calcular_y_guardar_totales_venta`, `aplicar_stock_despues_de_crear_venta`,
  `reconciliar_stock_tras_editar_venta`.
* `compras/views.py`, `ventas/views.py` : the tax-percentage parsing and the
  edit orchestration (snapshot, reconcile inside try/except, recompute totals).

Python `Decimal` values are modelled as exact rationals (`ℚ`); `Decimal.quantize`
with `ROUND_HALF_UP` is `roundHalfUp2`.  Database rows of `Producto` are a
function `ℕ → Option Producto`; a Django `.update(...)` is a pointwise update
of that function.  A raised exception is an explicit error value, and
`@transaction.atomic` is the `atomic` combinator that restores the entry state
when the wrapped computation ends in an error (rollback to savepoint).
-/

/-- Round-half-up (away from zero on ties, as `decimal.ROUND_HALF_UP`) to two
fractional digits.  Models `Decimal.quantize(Decimal("0.01"), ROUND_HALF_UP)`. -/
def roundHalfUp2 (q : ℚ) : ℚ :=
  if q < 0 then -(((Int.floor (-q * 100 + 1/2) : ℤ) : ℚ) / 100)
  else (((Int.floor (q * 100 + 1/2) : ℤ) : ℚ) / 100)

/-- Errors raised by the embedded code.  `validacionNoExiste`,
`validacionStockNegativo`, `validacionStockInsuficiente` and
`validacionBajoMinimo` model Django `ValidationError`s with the corresponding
messages; `atributoNone` models the `AttributeError` raised by
`None.quantize(...)`. -/
inductive Err where
  | validacionNoExiste
  | validacionStockNegativo
  | validacionStockInsuficiente
  | validacionBajoMinimo
  | atributoNone
deriving DecidableEq, Repr

/-- The fields of `inventario.models.Producto` that the services read or write:
`stock` (integer), `stock_minimo` (nullable integer), `precio_compra`
(monetary). -/
structure Producto where
  stock : ℤ
  stock_minimo : Option ℤ
  precio_compra : ℚ
deriving DecidableEq, Repr

/-- The `Producto` table: product id to row (none = no such row). -/
def ProdState : Type := ℕ → Option Producto

/-- A Django `Producto.objects.filter(pk=pid).update(...)` : apply `f` to the
row with primary key `pid`, leave every other row unchanged. -/
def updateProducto (st : ProdState) (pid : ℕ) (f : Producto → Producto) : ProdState :=
  fun k => if k = pid then (st k).map f else st k

/-- The declared check constraint `producto_stock_minimo_lte_stock_or_null`:
`stock_minimo` is null or at most `stock`. -/
def invariantMinimo (p : Producto) : Prop :=
  ∀ m : ℤ, p.stock_minimo = some m → m ≤ p.stock

/-- The declared row constraints relevant here: `stock ≥ 0`
(`producto_stock_gte_0`) together with `invariantMinimo`. -/
def invariantProducto (p : Producto) : Prop :=
  0 ≤ p.stock ∧ invariantMinimo p

/-- `invariantProducto` for every row present in the table. -/
def invariantEstado (st : ProdState) : Prop :=
  ∀ k p, st k = some p → invariantProducto p

/-- Purchase-side `_aplicar_delta_stock_seguro` (`compras/services.py`).
Falsy delta (absent or zero) is a no-op; otherwise the stock is updated with
`F("stock") + delta`, and if the resulting stock is negative the delta is
reverted with `F("stock") - delta` and a `ValidationError` is raised. -/
def aplicarDeltaStockSeguroCompra (st : ProdState) (productoId : ℕ)
    (deltaUnidades : Option ℤ) : ProdState × Option Err :=
  let d := deltaUnidades.getD 0
  if d = 0 then (st, none)
  else
    match st productoId with
    | none => (st, some Err.validacionNoExiste)
    | some p =>
      let st1 := updateProducto st productoId fun q => { q with stock := q.stock + d }
      if p.stock + d < 0 then
        (updateProducto st1 productoId fun q => { q with stock := q.stock - d },
         some Err.validacionStockNegativo)
      else (st1, none)

/-- Module-level policy flag of `ventas/services.py`. -/
def ALLOW_SOFT_MINIMO_EN_VENTA : Bool := true

/-- Sale-side `_aplicar_delta_stock_seguro` (`ventas/services.py`).
Falsy delta is a no-op.  The row is read under lock; a delta that would make
the stock negative raises before any write.  A consuming delta that drops the
stock below a non-null `stock_minimo` takes the soft-policy update
(`stock = F("stock") + delta`, `stock_minimo = Least(stock_minimo, F("stock") + delta)`)
when `ALLOW_SOFT_MINIMO_EN_VENTA`, otherwise a `ValidationError` is raised;
any other delta is applied with a plain stock update. -/
def aplicarDeltaStockSeguroVenta (st : ProdState) (productoId : ℕ)
    (deltaUnidades : Option ℤ) : ProdState × Option Err :=
  let d := deltaUnidades.getD 0
  if d = 0 then (st, none)
  else
    match st productoId with
    | none => (st, some Err.validacionNoExiste)
    | some p =>
      let stockActual := p.stock
      let nuevoStock := stockActual + d
      if nuevoStock < 0 then (st, some Err.validacionStockInsuficiente)
      else
        let quedaBajoMinimo : Bool :=
          match p.stock_minimo with
          | some m => decide (nuevoStock < m)
          | none => false
        if d < 0 ∧ quedaBajoMinimo = true ∧ ALLOW_SOFT_MINIMO_EN_VENTA = true then
          (updateProducto st productoId fun q =>
            { q with stock := q.stock + d,
                     stock_minimo := q.stock_minimo.map fun m => min m (q.stock + d) },
           none)
        else if quedaBajoMinimo = true then (st, some Err.validacionBajoMinimo)
        else (updateProducto st productoId fun q => { q with stock := q.stock + d }, none)

/-- A line snapshot dict `{pk_linea: (producto_id, cantidad)}` as an
association list of `(pk, (producto_id, cantidad))`. -/
abbrev Snap : Type := List (ℕ × ℕ × ℕ)

/-- Dictionary lookup `snapshot[pk]`. -/
def buscar (s : Snap) (pk : ℕ) : Option (ℕ × ℕ) :=
  (s.find? fun e => e.1 = pk).map (·.2)

/-- The keys appearing in either snapshot (`pks_previas | pks_actuales`). -/
def clavesDe (prev cur : Snap) : List ℕ :=
  ((prev.map (·.1)) ++ (cur.map (·.1))).dedup

/-- Total quantity of the lines of snapshot `s` that reference product `p`. -/
def cantidadDe (p : ℕ) (s : Snap) : ℤ :=
  (s.map fun e => if e.2.1 = p then (e.2.2 : ℤ) else 0).sum

/-- The stock adjustments emitted by `reconciliar_stock_tras_editar_compra`:
removed lines subtract their old quantity from the old product, new lines add
their quantity to the new product, persisting lines with an unchanged product
get the single quantity delta, and a product change is a removal from the old
product plus an addition to the new one.  Each loop is modelled by one
per-key bucket function applied over the key union. The adjustment of the
`pks_eliminadas` loop for a key: reverse the old quantity of a line appearing
only in the previous snapshot. -/
def ajusteEliminadaCompra (prev cur : Snap) (pk : ℕ) : Option (ℕ × ℤ) :=
  match buscar prev pk, buscar cur pk with
  | some (prodAnterior, cantAnterior), none => some (prodAnterior, -(cantAnterior : ℤ))
  | _, _ => none

/-- The adjustment of the `pks_nuevas` loop for a key: add the new quantity of
a line appearing only in the current snapshot. -/
def ajusteNuevaCompra (prev cur : Snap) (pk : ℕ) : Option (ℕ × ℤ) :=
  match buscar prev pk, buscar cur pk with
  | none, some (prodActual, cantActual) => some (prodActual, (cantActual : ℤ))
  | _, _ => none

/-- The adjustments of the `pks_persisten` loop for a key: the single quantity
delta when the product is unchanged, otherwise a removal from the old product
followed by an addition to the new one. -/
def ajustePersistenteCompra (prev cur : Snap) (pk : ℕ) : List (ℕ × ℤ) :=
  match buscar prev pk, buscar cur pk with
  | some (prodAntes, cantAntes), some (prodAhora, cantAhora) =>
    if prodAntes = prodAhora then [(prodAhora, (cantAhora : ℤ) - (cantAntes : ℤ))]
    else [(prodAntes, -(cantAntes : ℤ)), (prodAhora, (cantAhora : ℤ))]
  | _, _ => []

def reconciliarAjustesCompra (prev cur : Snap) : List (ℕ × ℤ) :=
  (clavesDe prev cur).filterMap (ajusteEliminadaCompra prev cur) ++
  (clavesDe prev cur).filterMap (ajusteNuevaCompra prev cur) ++
  (clavesDe prev cur).flatMap (ajustePersistenteCompra prev cur)

/-- The stock adjustments emitted by `reconciliar_stock_tras_editar_venta`:
the same classification with the sale orientation (a removed line returns its
quantity, a new line consumes its quantity, an unchanged-product line gets the
negated quantity delta).  Sale-side `pks_eliminadas` bucket: return the old
quantity of a line appearing only in the previous snapshot. -/
def ajusteEliminadaVenta (prev cur : Snap) (pk : ℕ) : Option (ℕ × ℤ) :=
  match buscar prev pk, buscar cur pk with
  | some (prodAnterior, cantAnterior), none => some (prodAnterior, (cantAnterior : ℤ))
  | _, _ => none

/-- Sale-side `pks_nuevas` bucket: consume the quantity of a line appearing
only in the current snapshot. -/
def ajusteNuevaVenta (prev cur : Snap) (pk : ℕ) : Option (ℕ × ℤ) :=
  match buscar prev pk, buscar cur pk with
  | none, some (prodActual, cantActual) => some (prodActual, -(cantActual : ℤ))
  | _, _ => none

/-- Sale-side `pks_persisten` bucket: the negated quantity delta when the
product is unchanged, otherwise return the old quantity to the old product and
consume the new quantity from the new product. -/
def ajustePersistenteVenta (prev cur : Snap) (pk : ℕ) : List (ℕ × ℤ) :=
  match buscar prev pk, buscar cur pk with
  | some (prodAntes, cantAntes), some (prodAhora, cantAhora) =>
    if prodAntes = prodAhora then [(prodAhora, -((cantAhora : ℤ) - (cantAntes : ℤ)))]
    else [(prodAntes, (cantAntes : ℤ)), (prodAhora, -(cantAhora : ℤ))]
  | _, _ => []

def reconciliarAjustesVenta (prev cur : Snap) : List (ℕ × ℤ) :=
  (clavesDe prev cur).filterMap (ajusteEliminadaVenta prev cur) ++
  (clavesDe prev cur).filterMap (ajusteNuevaVenta prev cur) ++
  (clavesDe prev cur).flatMap (ajustePersistenteVenta prev cur)

/-- Run a list of `(producto_id, delta)` adjustments through a stock primitive
sequentially; a raised error stops the run and propagates, keeping the writes
made so far (they are undone only by an enclosing `atomic`). -/
def runAjustes (prim : ProdState → ℕ → Option ℤ → ProdState × Option Err) :
    ProdState → List (ℕ × ℤ) → ProdState × Option Err
  | st, [] => (st, none)
  | st, (pid, d) :: rest =>
    match prim st pid (some d) with
    | (st1, some e) => (st1, some e)
    | (st1, none) => runAjustes prim st1 rest

/-- `@transaction.atomic`: if the wrapped computation ends in an error the
database state is rolled back to the state at entry and the error propagates. -/
def atomic (f : ProdState → ProdState × Option Err) (st : ProdState) :
    ProdState × Option Err :=
  match f st with
  | (_, some e) => (st, some e)
  | (st1, none) => (st1, none)

/-- `reconciliar_stock_tras_editar_compra` : classify the before/after line
snapshots and apply the resulting deltas through the purchase-side primitive,
all inside one atomic transaction. -/
def reconciliarStockTrasEditarCompra (st : ProdState) (lineasPrevias lineasActuales : Snap) :
    ProdState × Option Err :=
  atomic (fun s => runAjustes aplicarDeltaStockSeguroCompra s
    (reconciliarAjustesCompra lineasPrevias lineasActuales)) st

/-- `reconciliar_stock_tras_editar_venta` : the sale-side reconciliation,
inside one atomic transaction. -/
def reconciliarStockTrasEditarVenta (st : ProdState) (lineasPrevias lineasActuales : Snap) :
    ProdState × Option Err :=
  atomic (fun s => runAjustes aplicarDeltaStockSeguroVenta s
    (reconciliarAjustesVenta lineasPrevias lineasActuales)) st

/-- A row of `compras.models.CompraProducto` as the services read it:
primary key, referenced product, quantity and unit price. -/
structure CompraLinea where
  pk : ℕ
  producto_id : ℕ
  cantidad : ℕ
  precio_unitario : ℚ
deriving DecidableEq, Repr

/-- The fields of `compras.models.Compra` used by the services: the line set
(`CompraProducto.objects.filter(compra=compra)`), the user-entered global
discount percentage, and the persisted monetary totals. -/
structure Compra where
  lineas : List CompraLinea
  descuento_porcentaje : ℕ
  subtotal : ℚ
  descuento_total : ℚ
  impuesto_total : ℚ
  total : ℚ
deriving DecidableEq, Repr

/-- A row of `ventas.models.VentaProducto`: primary key, product, quantity,
unit price and per-line discount percentage. -/
structure VentaLinea where
  pk : ℕ
  producto_id : ℕ
  cantidad : ℕ
  precio_unitario : ℚ
  descuento : ℚ
deriving DecidableEq, Repr

/-- The fields of `ventas.models.Venta` used by the services: line set,
user-entered absolute discount amount, tax amount, display tax percentage and
the persisted totals. -/
structure Venta where
  lineas : List VentaLinea
  descuento_total : ℚ
  impuesto : ℚ
  impuesto_porcentaje : ℚ
  subtotal : ℚ
  total : ℚ
deriving DecidableEq, Repr

/-- `redondear_moneda` (`compras/services.py`): `importe.quantize(...)`.
A `None` argument raises (`AttributeError`: `None` has no `quantize`);
otherwise the amount is rounded half-up to 2 decimals. -/
def redondearMoneda (importe : Option ℚ) : Except Err ℚ :=
  match importe with
  | none => Except.error Err.atributoNone
  | some q => Except.ok (roundHalfUp2 q)

/-- `_round2` (`ventas/services.py`): `Decimal(v or 0).quantize(...)`.
A `None` (or zero) argument is replaced by zero before rounding. -/
def round2Venta (v : Option ℚ) : ℚ :=
  roundHalfUp2 (v.getD 0)

/-- `calcular_y_guardar_totales_compra`: recompute the subtotal from the line
set (each line total `cantidad * precio_unitario` is exact in the 6-decimal
intermediate field because unit prices carry 2 decimals), re-derive the global
discount from the percentage, recompute the tax amount from the post-discount
base when a fractional rate is supplied (otherwise preserve it), and persist
subtotal, descuento_total, impuesto_total and total. -/
def calcularYGuardarTotalesCompra (compra : Compra) (tasaImpuestoPct : Option ℚ) : Compra :=
  let subtotalCalculado := (compra.lineas.map fun l => (l.cantidad : ℚ) * l.precio_unitario).sum
  let pct := (compra.descuento_porcentaje : ℚ) / 100
  let descuentoTotal := roundHalfUp2 (subtotalCalculado * pct)
  let base0 := subtotalCalculado - descuentoTotal
  let base := if base0 < 0 then 0 else base0
  let impuestoTotal :=
    match tasaImpuestoPct with
    | some tasa => roundHalfUp2 (base * tasa)
    | none => compra.impuesto_total
  { compra with
    subtotal := roundHalfUp2 subtotalCalculado
    descuento_total := descuentoTotal
    impuesto_total := impuestoTotal
    total := roundHalfUp2 (base + impuestoTotal) }

/-- `calcular_y_guardar_totales_venta`: recompute the subtotal from the line
set with the per-line discount (`cantidad * precio_unitario * (1 - descuento/100)`),
recompute the tax amount from `max(0, subtotal - descuento_total)` when a rate
is supplied (otherwise preserve the stored amount), and persist subtotal,
impuesto and total (`total = subtotal - descuento_total + impuesto`, on the
already-rounded subtotal). -/
def calcularYGuardarTotalesVenta (venta : Venta) (tasaImpuestoPct : Option ℚ) : Venta :=
  let subtotalCalc :=
    (venta.lineas.map fun l =>
      (l.cantidad : ℚ) * l.precio_unitario * (1 - l.descuento / 100)).sum
  let subtotalRedondeado := roundHalfUp2 subtotalCalc
  let impuesto :=
    match tasaImpuestoPct with
    | some tasa =>
      let desc := venta.descuento_total
      let base := max 0 (subtotalCalc - desc)
      roundHalfUp2 (base * tasa)
    | none => venta.impuesto
  let desc := venta.descuento_total
  { venta with
    subtotal := subtotalRedondeado
    impuesto := impuesto
    total := roundHalfUp2 (subtotalRedondeado - desc + impuesto) }

/-- One iteration of the line loop in `aplicar_stock_despues_de_crear_compra`:
add the line quantity to the product stock through the purchase-side
primitive, then update the product metadata: `precio_compra` takes the line
unit price, and `stock_minimo` is raised to `int(stock * 0.90)` when that
candidate exceeds the current minimum (`0.90` modelled exactly; `int(...)`
truncates, which on the non-negative stocks involved is floor). -/
def aplicarStockLineaCompra (st : ProdState) (l : CompraLinea) : ProdState × Option Err :=
  match aplicarDeltaStockSeguroCompra st l.producto_id (some (l.cantidad : ℤ)) with
  | (st1, some e) => (st1, some e)
  | (st1, none) =>
    match st1 l.producto_id with
    | none => (st1, some Err.validacionNoExiste)
    | some producto =>
      let stockTotal : ℤ := producto.stock
      let minimoCandidato : ℤ := stockTotal * 9 / 10
      let nuevoMinimo : Option ℤ :=
        if minimoCandidato > (producto.stock_minimo).getD 0 then some minimoCandidato
        else producto.stock_minimo
      (updateProducto st1 l.producto_id fun q =>
        { q with precio_compra := l.precio_unitario, stock_minimo := nuevoMinimo }, none)

/-- The line loop of `aplicar_stock_despues_de_crear_compra`, in line id
order, stopping at the first raised error. -/
def aplicarStockCrearCompraLoop : ProdState → List CompraLinea → ProdState × Option Err
  | st, [] => (st, none)
  | st, l :: rest =>
    match aplicarStockLineaCompra st l with
    | (st1, some e) => (st1, some e)
    | (st1, none) => aplicarStockCrearCompraLoop st1 rest

/-- `aplicar_stock_despues_de_crear_compra`: the line loop inside one atomic
transaction. -/
def aplicarStockDespuesDeCrearCompra (st : ProdState) (compra : Compra) :
    ProdState × Option Err :=
  atomic (fun s => aplicarStockCrearCompraLoop s compra.lineas) st

/-- `aplicar_stock_despues_de_crear_venta`: subtract every line quantity from
its product through the sale-side primitive, in line id order, inside one
atomic transaction. -/
def aplicarStockDespuesDeCrearVenta (st : ProdState) (venta : Venta) :
    ProdState × Option Err :=
  atomic (fun s => runAjustes aplicarDeltaStockSeguroVenta s
    (venta.lineas.map fun l => (l.producto_id, -(l.cantidad : ℤ)))) st

/-- The tax-percentage input as the views receive it from the submitted form:
absent, present but not convertible by `Decimal(...)`, or a numeric value. -/
inductive TaxInput where
  | absent
  | nonNumeric
  | numeric (valor : ℚ)
deriving DecidableEq, Repr

/-- The tax conversion of `compras/views.py` (`crear_compra` and
`editar_compra`): `Decimal(str(raw))` under try/except, then `val / 100` when
`val <= 100`; any failure or an out-of-range value leaves the rate `None`. -/
def tasaDesdeImpuestoCompra : TaxInput → Option ℚ
  | TaxInput.numeric valor => if valor ≤ 100 then some (valor / 100) else none
  | _ => none

/-- The tax conversion of `ventas/views.py`: the raw value is defaulted to
`"0"` when absent, converted by `Decimal(...)` and divided by 100 with no
range check; a conversion failure is caught together with the totals call, so
`none` here means the totals recomputation is skipped entirely. -/
def tasaDesdeImpuestoVenta : TaxInput → Option ℚ
  | TaxInput.absent => some 0
  | TaxInput.nonNumeric => none
  | TaxInput.numeric valor => some (valor / 100)

/-- The totals step of the purchase views: convert the tax input and always
invoke `calcular_y_guardar_totales_compra` with the resulting rate. -/
def pasoTotalesCompra (compra : Compra) (impuestoInput : TaxInput) : Compra :=
  calcularYGuardarTotalesCompra compra (tasaDesdeImpuestoCompra impuestoInput)

/-- The totals step of the sale views: the conversion and the call to
`calcular_y_guardar_totales_venta` share one try/except, so a conversion
failure skips the recomputation and leaves the order untouched. -/
def pasoTotalesVenta (venta : Venta) (impuestoInput : TaxInput) : Venta :=
  match tasaDesdeImpuestoVenta impuestoInput with
  | some tasa => calcularYGuardarTotalesVenta venta (some tasa)
  | none => venta

/-- The snapshot dict built from purchase lines,
`{l.pk: (l.producto_id, l.cantidad)}`. -/
def snapDeLineasCompra (ls : List CompraLinea) : Snap :=
  ls.map fun l => (l.pk, l.producto_id, l.cantidad)

/-- The snapshot dict built from sale lines. -/
def snapDeLineasVenta (ls : List VentaLinea) : Snap :=
  ls.map fun l => (l.pk, l.producto_id, l.cantidad)

/-- The post-save tail of `editar_compra` (`compras/views.py`): with the
header and line changes already persisted (`compra` holds the current lines),
run the stock reconciliation inside try/except (any exception is swallowed;
the inner atomic has already rolled its writes back), then recompute the
totals from the submitted tax input, then redirect with success. -/
def editarCompraPost (st : ProdState) (compra : Compra) (lineasPrevias : Snap)
    (impuestoInput : TaxInput) : ProdState × Compra × Bool :=
  let r := reconciliarStockTrasEditarCompra st lineasPrevias (snapDeLineasCompra compra.lineas)
  let compra1 := pasoTotalesCompra compra impuestoInput
  (r.1, compra1, true)

/-- The post-save tail of `editar_venta` (`ventas/views.py`): reconcile the
stock inside try/except (exceptions swallowed), then run the sale totals step
(itself inside its own try/except), then redirect with success. -/
def editarVentaPost (st : ProdState) (venta : Venta) (lineasPrevias : Snap)
    (impuestoInput : TaxInput) : ProdState × Venta × Bool :=
  let r := reconciliarStockTrasEditarVenta st lineasPrevias (snapDeLineasVenta venta.lineas)
  let venta1 := pasoTotalesVenta venta impuestoInput
  (r.1, venta1, true)

/-- Net signed quantity that an adjustment list applies to product `p`. -/
def netDeltaDe (p : ℕ) (ajustes : List (ℕ × ℤ)) : ℤ :=
  (ajustes.map fun a => if a.1 = p then a.2 else 0).sum

theorem atomic_error {f : ProdState → ProdState × Option Err} {st st' : ProdState} {e : Err}
    (h : atomic f st = (st', some e)) : st' = st := by
  unfold atomic at h
  rcases hf : f st with ⟨st1, e1⟩
  rw [hf] at h
  cases e1 <;> simp_all

theorem atomic_ok {f : ProdState → ProdState × Option Err} {st st' : ProdState}
    (h : atomic f st = (st', none)) : f st = (st', none) := by
  unfold atomic at h
  rcases hf : f st with ⟨st1, e1⟩
  rw [hf] at h
  cases e1 <;> simp_all

theorem netDeltaDe_nil (k : ℕ) : netDeltaDe k [] = 0 := rfl

theorem netDeltaDe_cons (k pid : ℕ) (d : ℤ) (rest : List (ℕ × ℤ)) :
    netDeltaDe k ((pid, d) :: rest) = (if pid = k then d else 0) + netDeltaDe k rest := by
  simp [netDeltaDe]

theorem compra_delta_cero (st : ProdState) (pid : ℕ) :
    aplicarDeltaStockSeguroCompra st pid (some 0) = (st, none) := by
  simp [aplicarDeltaStockSeguroCompra]

theorem compra_delta_absent (st : ProdState) (pid : ℕ) :
    aplicarDeltaStockSeguroCompra st pid none = (st, none) := by
  simp [aplicarDeltaStockSeguroCompra]

theorem compra_delta_noExiste {st : ProdState} {pid : ℕ} {d : ℤ}
    (hd : d ≠ 0) (hp : st pid = none) :
    aplicarDeltaStockSeguroCompra st pid (some d) = (st, some Err.validacionNoExiste) := by
  simp [aplicarDeltaStockSeguroCompra, hd, hp]

theorem compra_delta_negativo {st : ProdState} {pid : ℕ} {d : ℤ} {p : Producto}
    (hd : d ≠ 0) (hp : st pid = some p) (hneg : p.stock + d < 0) :
    aplicarDeltaStockSeguroCompra st pid (some d)
      = (updateProducto (updateProducto st pid fun q => { q with stock := q.stock + d })
           pid fun q => { q with stock := q.stock - d },
         some Err.validacionStockNegativo) := by
  simp [aplicarDeltaStockSeguroCompra, hd, hp, hneg]

theorem compra_delta_aplicado {st : ProdState} {pid : ℕ} {d : ℤ} {p : Producto}
    (hd : d ≠ 0) (hp : st pid = some p) (hneg : ¬ p.stock + d < 0) :
    aplicarDeltaStockSeguroCompra st pid (some d)
      = (updateProducto st pid fun q => { q with stock := q.stock + d }, none) := by
  simp [aplicarDeltaStockSeguroCompra, hd, hp, hneg]

theorem venta_delta_cero (st : ProdState) (pid : ℕ) :
    aplicarDeltaStockSeguroVenta st pid (some 0) = (st, none) := by
  simp [aplicarDeltaStockSeguroVenta]

theorem venta_delta_absent (st : ProdState) (pid : ℕ) :
    aplicarDeltaStockSeguroVenta st pid none = (st, none) := by
  simp [aplicarDeltaStockSeguroVenta]

theorem venta_delta_noExiste {st : ProdState} {pid : ℕ} {d : ℤ}
    (hd : d ≠ 0) (hp : st pid = none) :
    aplicarDeltaStockSeguroVenta st pid (some d) = (st, some Err.validacionNoExiste) := by
  simp [aplicarDeltaStockSeguroVenta, hd, hp]

theorem venta_delta_insuficiente {st : ProdState} {pid : ℕ} {d : ℤ} {p : Producto}
    (hd : d ≠ 0) (hp : st pid = some p) (hneg : p.stock + d < 0) :
    aplicarDeltaStockSeguroVenta st pid (some d)
      = (st, some Err.validacionStockInsuficiente) := by
  simp [aplicarDeltaStockSeguroVenta, hd, hp, hneg]

theorem venta_delta_soft {st : ProdState} {pid : ℕ} {d : ℤ} {p : Producto} {m : ℤ}
    (hd0 : d < 0) (hp : st pid = some p) (hneg : ¬ p.stock + d < 0)
    (hm : p.stock_minimo = some m) (hlt : p.stock + d < m) :
    aplicarDeltaStockSeguroVenta st pid (some d)
      = (updateProducto st pid fun q =>
          { q with stock := q.stock + d,
                   stock_minimo := q.stock_minimo.map fun mm => min mm (q.stock + d) },
         none) := by
  have hd : d ≠ 0 := by omega
  simp [aplicarDeltaStockSeguroVenta, hd, hd0, hp, hneg, hm, hlt,
    ALLOW_SOFT_MINIMO_EN_VENTA]

theorem venta_delta_sinMinimo {st : ProdState} {pid : ℕ} {d : ℤ} {p : Producto}
    (hd : d ≠ 0) (hp : st pid = some p) (hneg : ¬ p.stock + d < 0)
    (hnb : match p.stock_minimo with
           | some m => ¬ p.stock + d < m
           | none => True) :
    aplicarDeltaStockSeguroVenta st pid (some d)
      = (updateProducto st pid fun q => { q with stock := q.stock + d }, none) := by
  rcases hm : p.stock_minimo with _ | m
  · simp [aplicarDeltaStockSeguroVenta, hd, hp, hneg, hm]
  · rw [hm] at hnb
    simp [aplicarDeltaStockSeguroVenta, hd, hp, hneg, hm, hnb]

theorem venta_delta_bajoMinimo_dura {st : ProdState} {pid : ℕ} {d : ℤ} {p : Producto} {m : ℤ}
    (hd : d ≠ 0) (hd0 : ¬ d < 0) (hp : st pid = some p) (hneg : ¬ p.stock + d < 0)
    (hm : p.stock_minimo = some m) (hlt : p.stock + d < m) :
    aplicarDeltaStockSeguroVenta st pid (some d)
      = (st, some Err.validacionBajoMinimo) := by
  simp [aplicarDeltaStockSeguroVenta, hd, hd0, hp, hneg, hm, hlt]

theorem aplicarDeltaStockSeguroCompra_ok_stock {st st' : ProdState} {pid : ℕ} {d : ℤ}
    (h : aplicarDeltaStockSeguroCompra st pid (some d) = (st', none)) :
    ∀ k, (st' k).map Producto.stock
      = (st k).map fun q => q.stock + (if k = pid then d else 0) := by
  intro k
  by_cases hd : d = 0
  · subst hd
    rw [compra_delta_cero] at h
    injection h with h1 _
    subst h1
    cases st k <;> simp
  · rcases hp : st pid with _ | p
    · rw [compra_delta_noExiste hd hp] at h
      simp at h
    · by_cases hneg : p.stock + d < 0
      · rw [compra_delta_negativo hd hp hneg] at h
        simp at h
      · rw [compra_delta_aplicado hd hp hneg] at h
        injection h with h1 _
        subst h1
        unfold updateProducto
        by_cases hk : k = pid
        · subst hk
          rw [hp]
          simp
        · simp [hk]

theorem aplicarDeltaStockSeguroVenta_ok_stock {st st' : ProdState} {pid : ℕ} {d : ℤ}
    (h : aplicarDeltaStockSeguroVenta st pid (some d) = (st', none)) :
    ∀ k, (st' k).map Producto.stock
      = (st k).map fun q => q.stock + (if k = pid then d else 0) := by
  intro k
  by_cases hd : d = 0
  · subst hd
    rw [venta_delta_cero] at h
    injection h with h1 _
    subst h1
    cases st k <;> simp
  · rcases hp : st pid with _ | p
    · rw [venta_delta_noExiste hd hp] at h
      simp at h
    · by_cases hneg : p.stock + d < 0
      · rw [venta_delta_insuficiente hd hp hneg] at h
        simp at h
      · rcases hm : p.stock_minimo with _ | m
        · rw [venta_delta_sinMinimo hd hp hneg (by rw [hm]; trivial)] at h
          injection h with h1 _
          subst h1
          unfold updateProducto
          by_cases hk : k = pid
          · subst hk; rw [hp]; simp
          · simp [hk]
        · by_cases hlt : p.stock + d < m
          · by_cases hd0 : d < 0
            · rw [venta_delta_soft hd0 hp hneg hm hlt] at h
              injection h with h1 _
              subst h1
              unfold updateProducto
              by_cases hk : k = pid
              · subst hk; rw [hp]; simp
              · simp [hk]
            · rw [venta_delta_bajoMinimo_dura hd hd0 hp hneg hm hlt] at h
              simp at h
          · rw [venta_delta_sinMinimo hd hp hneg (by rw [hm]; exact hlt)] at h
            injection h with h1 _
            subst h1
            unfold updateProducto
            by_cases hk : k = pid
            · subst hk; rw [hp]; simp
            · simp [hk]

theorem runAjustes_ok_stock (prim : ProdState → ℕ → Option ℤ → ProdState × Option Err)
    (hprim : ∀ st st' pid d, prim st pid (some d) = (st', none) →
      ∀ k, (st' k).map Producto.stock
        = (st k).map fun q => q.stock + (if k = pid then d else 0)) :
    ∀ (ajustes : List (ℕ × ℤ)) (st st' : ProdState),
      runAjustes prim st ajustes = (st', none) →
      ∀ k, (st' k).map Producto.stock
        = (st k).map fun q => q.stock + netDeltaDe k ajustes := by
  intro ajustes
  induction ajustes with
  | nil =>
    intro st st' h k
    unfold runAjustes at h
    injection h with h1 _
    subst h1
    rw [netDeltaDe_nil]
    cases st k <;> simp
  | cons a rest ih =>
    intro st st' h k
    rcases a with ⟨pid, d⟩
    unfold runAjustes at h
    rcases hp : prim st pid (some d) with ⟨st1, e1⟩
    rw [hp] at h
    cases e1 with
    | some e => simp at h
    | none =>
      have hstep := hprim st st1 pid d hp k
      have htail := ih st1 st' h k
      rw [netDeltaDe_cons]
      rcases hq : st k with _ | q
      · rw [hq] at hstep
        simp only [Option.map_none'] at hstep
        have h1 : st1 k = none := by
          rcases hh : st1 k with _ | q1
          · rfl
          · rw [hh] at hstep; simp at hstep
        rw [h1] at htail
        simp only [Option.map_none'] at htail
        have h2 : st' k = none := by
          rcases hh : st' k with _ | q2
          · rfl
          · rw [hh] at htail; simp at htail
        rw [h2]
        simp
      · rw [hq] at hstep
        rcases hh : st1 k with _ | q1
        · rw [hh] at hstep; simp at hstep
        · rw [hh] at hstep htail
          simp only [Option.map_some'] at hstep
          injection hstep with hstep
          rw [htail]
          simp only [Option.map_some', Option.some_inj]
          rw [hstep]
          by_cases hk : k = pid
          · subst hk
            simp
            ring
          · have hk2 : ¬ pid = k := fun hc => hk hc.symm
            simp [hk, hk2]

/-- Contribution of one optional adjustment to product `p`. -/
def contribDe (p : ℕ) (x : Option (ℕ × ℤ)) : ℤ :=
  match x with
  | some a => if a.1 = p then a.2 else 0
  | none => 0

/-- Contribution of one optional snapshot entry to the quantity of `p`. -/
def cantAporte (p : ℕ) (x : Option (ℕ × ℕ)) : ℤ :=
  match x with
  | some dat => if dat.1 = p then (dat.2 : ℤ) else 0
  | none => 0

theorem netDeltaDe_append (k : ℕ) (a b : List (ℕ × ℤ)) :
    netDeltaDe k (a ++ b) = netDeltaDe k a + netDeltaDe k b := by
  simp [netDeltaDe]

theorem netDeltaDe_filterMap (p : ℕ) (f : ℕ → Option (ℕ × ℤ)) :
    ∀ K : List ℕ, netDeltaDe p (K.filterMap f)
      = (K.map fun pk => contribDe p (f pk)).sum := by
  intro K
  induction K with
  | nil => simp [netDeltaDe]
  | cons a K ih =>
    rcases hf : f a with _ | pr
    · simp [List.filterMap_cons, hf, contribDe, ih]
    · rcases pr with ⟨pid, d⟩
      simp [List.filterMap_cons, hf, contribDe, netDeltaDe_cons, ih]

theorem netDeltaDe_flatMap (p : ℕ) (g : ℕ → List (ℕ × ℤ)) :
    ∀ K : List ℕ, netDeltaDe p (K.flatMap g)
      = (K.map fun pk => netDeltaDe p (g pk)).sum := by
  intro K
  induction K with
  | nil => simp [netDeltaDe]
  | cons a K ih => simp [List.flatMap_cons, netDeltaDe_append, ih]

theorem sum_map_add_int {α : Type} (K : List α) (f g : α → ℤ) :
    (K.map fun x => f x + g x).sum = (K.map f).sum + (K.map g).sum := by
  induction K with
  | nil => simp
  | cons a K ih => simp [ih]; ring

theorem sum_map_sub_int {α : Type} (K : List α) (f g : α → ℤ) :
    (K.map fun x => f x - g x).sum = (K.map f).sum - (K.map g).sum := by
  induction K with
  | nil => simp
  | cons a K ih => simp [ih]; ring

theorem buscar_nil (pk : ℕ) : buscar [] pk = none := rfl

theorem buscar_cons (e : ℕ × ℕ × ℕ) (s : Snap) (pk : ℕ) :
    buscar (e :: s) pk = if e.1 = pk then some e.2 else buscar s pk := by
  by_cases h : e.1 = pk <;> simp [buscar, List.find?_cons, h]

/-- Value of an optional snapshot lookup under `g`, zero when absent. -/
def aporteOpt (g : ℕ × ℕ → ℤ) (x : Option (ℕ × ℕ)) : ℤ :=
  match x with
  | some dat => g dat
  | none => 0

theorem sum_buscar (g : ℕ × ℕ → ℤ) :
    ∀ (s : Snap) (K : List ℕ), K.Nodup → (s.map (·.1)).Nodup →
      (∀ e ∈ s, e.1 ∈ K) →
      (K.map fun pk => aporteOpt g (buscar s pk)).sum
      = (s.map fun e => g e.2).sum := by
  intro s
  induction s with
  | nil =>
    intro K _ _ _
    simp [buscar_nil, aporteOpt]
  | cons e s ih =>
    intro K hK hs hcov
    have hs0 : e.1 ∉ s.map (·.1) ∧ (s.map (·.1)).Nodup := by
      simpa [List.nodup_cons] using hs
    have he1 : e.1 ∈ K := hcov e (List.mem_cons_self e s)
    have hperm : K.Perm (e.1 :: K.erase e.1) := List.perm_cons_erase he1
    have hsum : (K.map fun pk => aporteOpt g (buscar (e :: s) pk)).sum
        = ((e.1 :: K.erase e.1).map fun pk => aporteOpt g (buscar (e :: s) pk)).sum :=
      (hperm.map _).sum_eq
    rw [hsum]
    simp only [List.map_cons, List.sum_cons]
    rw [buscar_cons]
    simp only [if_pos rfl]
    have hcongr : ∀ pk ∈ K.erase e.1,
        aporteOpt g (buscar (e :: s) pk) = aporteOpt g (buscar s pk) := by
      intro pk hpk
      have hne : e.1 ≠ pk := by
        intro hcontra
        subst hcontra
        exact hK.not_mem_erase hpk
      rw [buscar_cons, if_neg hne]
    rw [List.map_congr_left hcongr]
    have hcov2 : ∀ e2 ∈ s, e2.1 ∈ K.erase e.1 := by
      intro e2 he2
      have hne : e2.1 ≠ e.1 := by
        intro hcontra
        exact hs0.1 (hcontra ▸ List.mem_map_of_mem (·.1) he2)
      exact (List.mem_erase_of_ne hne).mpr (hcov e2 (List.mem_cons_of_mem e he2))
    rw [ih (K.erase e.1) (hK.erase e.1) hs0.2 hcov2]
    simp [aporteOpt]

theorem claves_nodup (prev cur : Snap) : (clavesDe prev cur).Nodup :=
  List.nodup_dedup _

theorem claves_cov_prev (prev cur : Snap) : ∀ e ∈ prev, e.1 ∈ clavesDe prev cur := by
  intro e he
  unfold clavesDe
  rw [List.mem_dedup]
  exact List.mem_append_left _ (List.mem_map_of_mem _ he)

theorem claves_cov_cur (prev cur : Snap) : ∀ e ∈ cur, e.1 ∈ clavesDe prev cur := by
  intro e he
  unfold clavesDe
  rw [List.mem_dedup]
  exact List.mem_append_right _ (List.mem_map_of_mem _ he)

theorem netDeltaDe_singleton (p x : ℕ) (v : ℤ) :
    netDeltaDe p [(x, v)] = if x = p then v else 0 := by
  simp [netDeltaDe]

theorem netDeltaDe_pair (p x y : ℕ) (v w : ℤ) :
    netDeltaDe p [(x, v), (y, w)]
      = (if x = p then v else 0) + (if y = p then w else 0) := by
  simp [netDeltaDe]

theorem contrib_puntual_compra (prev cur : Snap) (p pk : ℕ) :
    contribDe p (ajusteEliminadaCompra prev cur pk)
    + contribDe p (ajusteNuevaCompra prev cur pk)
    + netDeltaDe p (ajustePersistenteCompra prev cur pk)
    = aporteOpt (fun dat => if dat.1 = p then (dat.2 : ℤ) else 0) (buscar cur pk)
      - aporteOpt (fun dat => if dat.1 = p then (dat.2 : ℤ) else 0) (buscar prev pk) := by
  rcases hb : buscar prev pk with _ | ⟨a, ca⟩ <;> rcases hc : buscar cur pk with _ | ⟨b, cb⟩
  · simp [ajusteEliminadaCompra, ajusteNuevaCompra, ajustePersistenteCompra, hb, hc,
      contribDe, aporteOpt, netDeltaDe]
  · simp only [ajusteEliminadaCompra, ajusteNuevaCompra, ajustePersistenteCompra, hb, hc,
      contribDe, aporteOpt, netDeltaDe, List.map_nil, List.sum_nil]
    split_ifs <;> ring
  · simp only [ajusteEliminadaCompra, ajusteNuevaCompra, ajustePersistenteCompra, hb, hc,
      contribDe, aporteOpt, netDeltaDe, List.map_nil, List.sum_nil]
    split_ifs <;> ring
  · have helim : ajusteEliminadaCompra prev cur pk = none := by simp [ajusteEliminadaCompra, hb, hc]
    have hnueva : ajusteNuevaCompra prev cur pk = none := by simp [ajusteNuevaCompra, hb, hc]
    by_cases hab : a = b
    · subst hab
      have hpers : ajustePersistenteCompra prev cur pk = [(a, (cb : ℤ) - (ca : ℤ))] := by
        simp [ajustePersistenteCompra, hb, hc]
      rw [helim, hnueva, hpers, netDeltaDe_singleton]
      simp only [contribDe, aporteOpt, hb, hc]
      split_ifs <;> ring
    · have hpers : ajustePersistenteCompra prev cur pk = [(a, -(ca : ℤ)), (b, (cb : ℤ))] := by
        simp [ajustePersistenteCompra, hb, hc, hab]
      rw [helim, hnueva, hpers, netDeltaDe_pair]
      simp only [contribDe, aporteOpt, hb, hc]
      split_ifs <;> ring

theorem contrib_puntual_venta (prev cur : Snap) (p pk : ℕ) :
    contribDe p (ajusteEliminadaVenta prev cur pk)
    + contribDe p (ajusteNuevaVenta prev cur pk)
    + netDeltaDe p (ajustePersistenteVenta prev cur pk)
    = aporteOpt (fun dat => if dat.1 = p then (dat.2 : ℤ) else 0) (buscar prev pk)
      - aporteOpt (fun dat => if dat.1 = p then (dat.2 : ℤ) else 0) (buscar cur pk) := by
  rcases hb : buscar prev pk with _ | ⟨a, ca⟩ <;> rcases hc : buscar cur pk with _ | ⟨b, cb⟩
  · simp [ajusteEliminadaVenta, ajusteNuevaVenta, ajustePersistenteVenta, hb, hc,
      contribDe, aporteOpt, netDeltaDe]
  · simp only [ajusteEliminadaVenta, ajusteNuevaVenta, ajustePersistenteVenta, hb, hc,
      contribDe, aporteOpt, netDeltaDe, List.map_nil, List.sum_nil]
    split_ifs <;> ring
  · simp only [ajusteEliminadaVenta, ajusteNuevaVenta, ajustePersistenteVenta, hb, hc,
      contribDe, aporteOpt, netDeltaDe, List.map_nil, List.sum_nil]
    split_ifs <;> ring
  · have helim : ajusteEliminadaVenta prev cur pk = none := by simp [ajusteEliminadaVenta, hb, hc]
    have hnueva : ajusteNuevaVenta prev cur pk = none := by simp [ajusteNuevaVenta, hb, hc]
    by_cases hab : a = b
    · subst hab
      have hpers : ajustePersistenteVenta prev cur pk = [(a, -((cb : ℤ) - (ca : ℤ)))] := by
        simp [ajustePersistenteVenta, hb, hc]
      rw [helim, hnueva, hpers, netDeltaDe_singleton]
      simp only [contribDe, aporteOpt, hb, hc]
      split_ifs <;> ring
    · have hpers : ajustePersistenteVenta prev cur pk = [(a, (ca : ℤ)), (b, -(cb : ℤ))] := by
        simp [ajustePersistenteVenta, hb, hc, hab]
      rw [helim, hnueva, hpers, netDeltaDe_pair]
      simp only [contribDe, aporteOpt, hb, hc]
      split_ifs <;> ring

theorem netDelta_reconciliarCompra (prev cur : Snap) (p : ℕ)
    (hprev : (prev.map (·.1)).Nodup) (hcur : (cur.map (·.1)).Nodup) :
    netDeltaDe p (reconciliarAjustesCompra prev cur)
      = cantidadDe p cur - cantidadDe p prev := by
  have h1 : netDeltaDe p (reconciliarAjustesCompra prev cur)
      = ((clavesDe prev cur).map fun pk =>
          contribDe p (ajusteEliminadaCompra prev cur pk)
          + contribDe p (ajusteNuevaCompra prev cur pk)
          + netDeltaDe p (ajustePersistenteCompra prev cur pk)).sum := by
    unfold reconciliarAjustesCompra
    rw [netDeltaDe_append, netDeltaDe_append,
      netDeltaDe_filterMap p (ajusteEliminadaCompra prev cur),
      netDeltaDe_filterMap p (ajusteNuevaCompra prev cur),
      netDeltaDe_flatMap p (ajustePersistenteCompra prev cur),
      sum_map_add_int, sum_map_add_int]
  rw [h1]
  rw [List.map_congr_left fun pk _ => contrib_puntual_compra prev cur p pk]
  rw [sum_map_sub_int]
  rw [sum_buscar _ cur (clavesDe prev cur) (claves_nodup prev cur) hcur
    (claves_cov_cur prev cur)]
  rw [sum_buscar _ prev (clavesDe prev cur) (claves_nodup prev cur) hprev
    (claves_cov_prev prev cur)]
  rfl

theorem netDelta_reconciliarVenta (prev cur : Snap) (p : ℕ)
    (hprev : (prev.map (·.1)).Nodup) (hcur : (cur.map (·.1)).Nodup) :
    netDeltaDe p (reconciliarAjustesVenta prev cur)
      = cantidadDe p prev - cantidadDe p cur := by
  have h1 : netDeltaDe p (reconciliarAjustesVenta prev cur)
      = ((clavesDe prev cur).map fun pk =>
          contribDe p (ajusteEliminadaVenta prev cur pk)
          + contribDe p (ajusteNuevaVenta prev cur pk)
          + netDeltaDe p (ajustePersistenteVenta prev cur pk)).sum := by
    unfold reconciliarAjustesVenta
    rw [netDeltaDe_append, netDeltaDe_append,
      netDeltaDe_filterMap p (ajusteEliminadaVenta prev cur),
      netDeltaDe_filterMap p (ajusteNuevaVenta prev cur),
      netDeltaDe_flatMap p (ajustePersistenteVenta prev cur),
      sum_map_add_int, sum_map_add_int]
  rw [h1]
  rw [List.map_congr_left fun pk _ => contrib_puntual_venta prev cur p pk]
  rw [sum_map_sub_int]
  rw [sum_buscar _ prev (clavesDe prev cur) (claves_nodup prev cur) hprev
    (claves_cov_prev prev cur)]
  rw [sum_buscar _ cur (clavesDe prev cur) (claves_nodup prev cur) hcur
    (claves_cov_cur prev cur)]
  rfl

theorem compra_delta_negativo_sin_mutacion {st : ProdState} {pid : ℕ} {d : ℤ} {p : Producto}
    (hd : d ≠ 0) (hp : st pid = some p) (hneg : p.stock + d < 0) :
    aplicarDeltaStockSeguroCompra st pid (some d)
      = (st, some Err.validacionStockNegativo) := by
  rw [compra_delta_negativo hd hp hneg]
  have hrev : updateProducto
      (updateProducto st pid fun q => { q with stock := q.stock + d })
      pid (fun q => { q with stock := q.stock - d }) = st := by
    funext k
    by_cases hk : k = pid
    · subst hk
      rcases p with ⟨ps, pm, pp⟩
      simp [updateProducto, hp]
    · simp [updateProducto, hk]
  rw [hrev]

/-- Claim C2: the stock adjustment primitive (both variants) is a no-op when
the delta is zero or absent, leaving the product table untouched and raising
no error; and when `current_stock + delta < 0` it fails with a validation
error while the whole table — stock and stock_minimo of every product —
is exactly as before the call. -/
theorem claim_C2_delta_noop_y_negativo :
    (∀ (st : ProdState) (pid : ℕ),
      aplicarDeltaStockSeguroCompra st pid none = (st, none)
      ∧ aplicarDeltaStockSeguroCompra st pid (some 0) = (st, none)
      ∧ aplicarDeltaStockSeguroVenta st pid none = (st, none)
      ∧ aplicarDeltaStockSeguroVenta st pid (some 0) = (st, none))
    ∧ (∀ (st : ProdState) (pid : ℕ) (p : Producto) (d : ℤ),
      st pid = some p → 0 ≤ p.stock → p.stock + d < 0 →
      aplicarDeltaStockSeguroCompra st pid (some d)
        = (st, some Err.validacionStockNegativo)
      ∧ aplicarDeltaStockSeguroVenta st pid (some d)
        = (st, some Err.validacionStockInsuficiente)) := by
  constructor
  · intro st pid
    exact ⟨compra_delta_absent st pid, compra_delta_cero st pid,
      venta_delta_absent st pid, venta_delta_cero st pid⟩
  · intro st pid p d hp hpos hneg
    have hd : d ≠ 0 := by omega
    exact ⟨compra_delta_negativo_sin_mutacion hd hp hneg,
      venta_delta_insuficiente hd hp hneg⟩

theorem claim_C2_delta_noop_y_negativo_witness :
    ((fun k => if k = 1 then some (⟨3, none, 0⟩ : Producto) else none) 1
        = some (⟨3, none, 0⟩ : Producto))
    ∧ (0 : ℤ) ≤ 3
    ∧ (3 : ℤ) + (-5) < 0
    ∧ aplicarDeltaStockSeguroCompra
        (fun k => if k = 1 then some (⟨3, none, 0⟩ : Producto) else none) 1 (some (-5))
        = ((fun k => if k = 1 then some (⟨3, none, 0⟩ : Producto) else none),
           some Err.validacionStockNegativo) :=
  ⟨rfl, by norm_num, by norm_num,
    (claim_C2_delta_noop_y_negativo.2
      (fun k => if k = 1 then some (⟨3, none, 0⟩ : Producto) else none) 1
      ⟨3, none, 0⟩ (-5) rfl (by norm_num) (by norm_num)).1⟩

/-- Claim C3 counterexample: a raising delta does not succeed "regardless of
whether the resulting stock is still below stock_minimum" — on an existing
product with stock 0 and stock_minimo 10, the delta +5 lands below the
minimum, and the primitive takes the hard branch (the soft branch requires a
consuming delta) and rejects with a ValidationError, mutating nothing. -/
theorem claim_C3_politica_blanda_counterexample :
    ((fun k => if k = 1 then some (⟨0, some 10, 0⟩ : Producto) else none) 1).isSome = true
    ∧ (0 : ℤ) < 5
    ∧ aplicarDeltaStockSeguroVenta
        (fun k => if k = 1 then some (⟨0, some 10, 0⟩ : Producto) else none) 1 (some 5)
        = ((fun k => if k = 1 then some (⟨0, some 10, 0⟩ : Producto) else none),
           some Err.validacionBajoMinimo)
    ∧ (aplicarDeltaStockSeguroVenta
        (fun k => if k = 1 then some (⟨0, some 10, 0⟩ : Producto) else none) 1 (some 5)).2
        ≠ none := by
  refine ⟨rfl, by norm_num, rfl, ?_⟩
  intro h
  cases h

/-- Claim C3 amended: under the default soft policy the sale-side primitive
applies a consuming delta whose result stays non-negative but falls below a
non-null minimum, simultaneously lowering stock_minimo to
min(stock_minimo, new_stock), and never rejects it; a raising delta on an
existing product succeeds and just adds the delta whenever the resulting
stock is not below the minimum — in particular always under the declared row
constraints (stock non-negative, stock_minimo at most stock), since a raising
delta then never lands below the minimum; but a raising delta whose result
does land below a non-null stock_minimo is rejected with a validation error
and mutates nothing (the soft branch requires a consuming delta). -/
theorem claim_C3_politica_blanda :
    (∀ (st : ProdState) (pid : ℕ) (p : Producto) (d m : ℤ),
      st pid = some p → d < 0 → 0 ≤ p.stock + d →
      p.stock_minimo = some m → p.stock + d < m →
      (aplicarDeltaStockSeguroVenta st pid (some d)).2 = none
      ∧ (aplicarDeltaStockSeguroVenta st pid (some d)).1 pid
          = some { p with stock := p.stock + d,
                          stock_minimo := some (min m (p.stock + d)) }
      ∧ ∀ k, k ≠ pid → (aplicarDeltaStockSeguroVenta st pid (some d)).1 k = st k)
    ∧ (∀ (st : ProdState) (pid : ℕ) (p : Producto) (d : ℤ),
      st pid = some p → 0 < d → 0 ≤ p.stock → invariantMinimo p →
      (aplicarDeltaStockSeguroVenta st pid (some d)).2 = none
      ∧ (aplicarDeltaStockSeguroVenta st pid (some d)).1 pid
          = some { p with stock := p.stock + d }
      ∧ ∀ k, k ≠ pid → (aplicarDeltaStockSeguroVenta st pid (some d)).1 k = st k)
    ∧ (∀ (st : ProdState) (pid : ℕ) (p : Producto) (d m : ℤ),
      st pid = some p → 0 < d → 0 ≤ p.stock →
      p.stock_minimo = some m → p.stock + d < m →
      aplicarDeltaStockSeguroVenta st pid (some d)
        = (st, some Err.validacionBajoMinimo)) := by
  refine ⟨?_, ?_, ?_⟩
  · intro st pid p d m hp hd0 hpos hm hlt
    have hneg : ¬ p.stock + d < 0 := by omega
    rw [venta_delta_soft hd0 hp hneg hm hlt]
    refine ⟨rfl, ?_, ?_⟩
    · simp [updateProducto, hp, hm]
    · intro k hk
      simp [updateProducto, hk]
  · intro st pid p d hp hd0 hpos hinv
    have hd : d ≠ 0 := by omega
    have hneg : ¬ p.stock + d < 0 := by omega
    have hnb : match p.stock_minimo with
        | some m => ¬ p.stock + d < m
        | none => True := by
      rcases hm : p.stock_minimo with _ | m
      · trivial
      · have := hinv m hm
        omega
    rw [venta_delta_sinMinimo hd hp hneg hnb]
    refine ⟨rfl, ?_, ?_⟩
    · simp [updateProducto, hp]
    · intro k hk
      simp [updateProducto, hk]
  · intro st pid p d m hp hd0 hpos hm hlt
    have hd : d ≠ 0 := by omega
    have hdneg : ¬ d < 0 := by omega
    have hneg : ¬ p.stock + d < 0 := by omega
    exact venta_delta_bajoMinimo_dura hd hdneg hp hneg hm hlt

theorem claim_C3_politica_blanda_witness :
    ((fun k => if k = 1 then some (⟨10, some 8, 0⟩ : Producto) else none) 1
        = some (⟨10, some 8, 0⟩ : Producto))
    ∧ (-5 : ℤ) < 0
    ∧ (0 : ℤ) ≤ 10 + (-5)
    ∧ (⟨10, some 8, 0⟩ : Producto).stock_minimo = some 8
    ∧ (10 : ℤ) + (-5) < 8
    ∧ (aplicarDeltaStockSeguroVenta
        (fun k => if k = 1 then some (⟨10, some 8, 0⟩ : Producto) else none) 1
        (some (-5))).1 1
        = some (⟨5, some 5, 0⟩ : Producto) :=
  ⟨rfl, by norm_num, by norm_num, rfl, by norm_num,
    ((claim_C3_politica_blanda.1
      (fun k => if k = 1 then some (⟨10, some 8, 0⟩ : Producto) else none) 1
      ⟨10, some 8, 0⟩ (-5) 8 rfl (by norm_num) (by norm_num) rfl (by norm_num)).2).1⟩

/-- Claim C5: for a fixed line set, discount and tax rate argument, running
the totals recomputation twice gives exactly the same persisted order as
running it once, in both the purchase and the sale variant. -/
theorem claim_C5_totales_idempotentes :
    (∀ (compra : Compra) (tasa : Option ℚ),
      calcularYGuardarTotalesCompra (calcularYGuardarTotalesCompra compra tasa) tasa
        = calcularYGuardarTotalesCompra compra tasa)
    ∧ (∀ (venta : Venta) (tasa : Option ℚ),
      calcularYGuardarTotalesVenta (calcularYGuardarTotalesVenta venta tasa) tasa
        = calcularYGuardarTotalesVenta venta tasa) := by
  constructor
  · intro c t
    cases t <;> rfl
  · intro v t
    cases t <;> rfl

/-- Claim C8 counterexample: the purchase-side rounding utility does not treat
a `None` input as zero and does raise — `redondear_moneda(None)` evaluates
`None.quantize(...)`, an `AttributeError`, instead of returning 0.00. -/
theorem claim_C8_redondeo_counterexample :
    redondearMoneda none = Except.error Err.atributoNone
    ∧ redondearMoneda none ≠ Except.ok (0 : ℚ) := by
  refine ⟨rfl, ?_⟩
  intro h
  exact Except.noConfusion h

/-- Claim C8 amended: both rounding variants round to exactly two fractional
digits with round-half-up (10.005 to 10.01, 10.004 to 10.00); the sale-side
variant treats a `None` input as zero and never raises, while the
purchase-side variant requires a non-`None` amount (a `None` input raises)
and on any actual amount returns the half-up rounding without raising. -/
theorem claim_C8_redondeo_amended :
    roundHalfUp2 (10.005 : ℚ) = 10.01
    ∧ roundHalfUp2 (10.004 : ℚ) = 10.00
    ∧ round2Venta none = 0
    ∧ (∀ v : ℚ, round2Venta (some v) = roundHalfUp2 v)
    ∧ (∀ q : ℚ, redondearMoneda (some q) = Except.ok (roundHalfUp2 q))
    ∧ (∀ q : ℚ, ∃ n : ℤ, roundHalfUp2 q * 100 = (n : ℚ)) := by
  refine ⟨by norm_num [roundHalfUp2], by norm_num [roundHalfUp2],
    by norm_num [round2Venta, roundHalfUp2],
    fun v => rfl, fun q => rfl, ?_⟩
  intro q
  unfold roundHalfUp2
  by_cases h : q < 0
  · rw [if_pos h]
    refine ⟨-Int.floor (-q * 100 + 1/2), ?_⟩
    push_cast
    field_simp
  · rw [if_neg h]
    refine ⟨Int.floor (q * 100 + 1/2), ?_⟩
    field_simp

/-- Claim C9 counterexample: in the sale views an out-of-range percentage is
not treated as "no tax rate supplied": the string "500" is converted to the
rate 5 with no range check and the totals calculator overwrites the stored
tax amount (here 7) with 500.00 instead of preserving it. -/
theorem claim_C9_tasa_counterexample :
    (pasoTotalesVenta ⟨[⟨1, 1, 1, 100, 0⟩], 0, 7, 0, 0, 0⟩
        (TaxInput.numeric 500)).impuesto = 500
    ∧ (pasoTotalesVenta ⟨[⟨1, 1, 1, 100, 0⟩], 0, 7, 0, 0, 0⟩
        (TaxInput.numeric 500)).impuesto
        ≠ (⟨[⟨1, 1, 1, 100, 0⟩], 0, 7, 0, 0, 0⟩ : Venta).impuesto := by
  constructor
  · norm_num [pasoTotalesVenta, tasaDesdeImpuestoVenta, calcularYGuardarTotalesVenta,
      roundHalfUp2]
  · norm_num [pasoTotalesVenta, tasaDesdeImpuestoVenta, calcularYGuardarTotalesVenta,
      roundHalfUp2]

/-- Claim C9 amended: the purchase views behave as the claim states — a
numeric value at most 100 becomes the fraction value/100, a non-numeric or
greater-than-100 value becomes "no rate" and the calculator is still invoked,
which preserves the stored tax amount — and no tax input raises.  The sale
views differ: a non-numeric value skips the totals call entirely (the order is
returned untouched), an absent value is converted to the rate 0 (overwriting
the tax amount with 0), and any numeric value, however large, is converted to
value/100 with no range check and applied. -/
theorem claim_C9_tasa_amended :
    (∀ c : Compra, pasoTotalesCompra c TaxInput.nonNumeric
        = calcularYGuardarTotalesCompra c none)
    ∧ (∀ c : Compra, pasoTotalesCompra c TaxInput.absent
        = calcularYGuardarTotalesCompra c none)
    ∧ (∀ (c : Compra) (q : ℚ), 100 < q →
        pasoTotalesCompra c (TaxInput.numeric q) = calcularYGuardarTotalesCompra c none)
    ∧ (∀ (c : Compra) (q : ℚ), q ≤ 100 →
        pasoTotalesCompra c (TaxInput.numeric q)
          = calcularYGuardarTotalesCompra c (some (q / 100)))
    ∧ (∀ c : Compra, (calcularYGuardarTotalesCompra c none).impuesto_total
        = c.impuesto_total)
    ∧ (∀ v : Venta, pasoTotalesVenta v TaxInput.nonNumeric = v)
    ∧ (∀ v : Venta, pasoTotalesVenta v TaxInput.absent
        = calcularYGuardarTotalesVenta v (some 0))
    ∧ (∀ (v : Venta) (q : ℚ), pasoTotalesVenta v (TaxInput.numeric q)
        = calcularYGuardarTotalesVenta v (some (q / 100))) := by
  refine ⟨fun c => rfl, fun c => rfl, ?_, ?_, fun c => rfl, fun v => rfl,
    fun v => rfl, fun v q => rfl⟩
  · intro c q h
    simp [pasoTotalesCompra, tasaDesdeImpuestoCompra, not_le.mpr h]
  · intro c q h
    simp [pasoTotalesCompra, tasaDesdeImpuestoCompra, h]

theorem claim_C9_tasa_amended_witness :
    (100 : ℚ) < 500
    ∧ pasoTotalesCompra ⟨[⟨1, 1, 1, 100⟩], 0, 0, 0, 7, 0⟩ (TaxInput.numeric 500)
        = calcularYGuardarTotalesCompra ⟨[⟨1, 1, 1, 100⟩], 0, 0, 0, 7, 0⟩ none :=
  ⟨by norm_num,
    claim_C9_tasa_amended.2.2.1 ⟨[⟨1, 1, 1, 100⟩], 0, 0, 0, 7, 0⟩ 500 (by norm_num)⟩

/-- Claim C1: a successful stock reconciliation changes each product's stock
by exactly the net effect — for purchases the sum of after-quantities minus
the sum of before-quantities of the lines referencing it, for sales the
negation — for every before snapshot and every persisted current line set
(with the snapshot dict keys unique, as dict keys are).  Moreover the emitted
adjustment lists have the claimed shape on each bucket: a persisting line with
the same product yields the single delta adjustment (quantity 5 edited to 8
gives one +3 for purchases, one -3 for sales), a removed line is fully
reversed, and a product change is a removal from the old product plus an
addition to the new product. -/
theorem claim_C1_reconciliacion_efecto_neto :
    (∀ (prev cur : Snap) (st st' : ProdState),
      (prev.map (·.1)).Nodup → (cur.map (·.1)).Nodup →
      reconciliarStockTrasEditarCompra st prev cur = (st', none) →
      ∀ p, (st' p).map Producto.stock
        = (st p).map fun q => q.stock + (cantidadDe p cur - cantidadDe p prev))
    ∧ (∀ (prev cur : Snap) (st st' : ProdState),
      (prev.map (·.1)).Nodup → (cur.map (·.1)).Nodup →
      reconciliarStockTrasEditarVenta st prev cur = (st', none) →
      ∀ p, (st' p).map Producto.stock
        = (st p).map fun q => q.stock + (cantidadDe p prev - cantidadDe p cur))
    ∧ reconciliarAjustesCompra [(1, 7, 5)] [(1, 7, 8)] = [(7, 3)]
    ∧ reconciliarAjustesVenta [(1, 7, 5)] [(1, 7, 8)] = [(7, -3)]
    ∧ reconciliarAjustesCompra [(1, 7, 5)] [] = [(7, -5)]
    ∧ reconciliarAjustesVenta [(1, 7, 5)] [] = [(7, 5)]
    ∧ reconciliarAjustesCompra [(1, 7, 4)] [(1, 9, 4)] = [(7, -4), (9, 4)]
    ∧ reconciliarAjustesVenta [(1, 7, 4)] [(1, 9, 4)] = [(7, 4), (9, -4)] := by
  refine ⟨?_, ?_, by decide, by decide, by decide, by decide, by decide, by decide⟩
  · intro prev cur st st' hprev hcur hok p
    have hraw := atomic_ok hok
    have hrun := runAjustes_ok_stock aplicarDeltaStockSeguroCompra
      (fun st st' pid d h => aplicarDeltaStockSeguroCompra_ok_stock h)
      (reconciliarAjustesCompra prev cur) st st' hraw p
    rw [netDelta_reconciliarCompra prev cur p hprev hcur] at hrun
    exact hrun
  · intro prev cur st st' hprev hcur hok p
    have hraw := atomic_ok hok
    have hrun := runAjustes_ok_stock aplicarDeltaStockSeguroVenta
      (fun st st' pid d h => aplicarDeltaStockSeguroVenta_ok_stock h)
      (reconciliarAjustesVenta prev cur) st st' hraw p
    rw [netDelta_reconciliarVenta prev cur p hprev hcur] at hrun
    exact hrun

theorem claim_C1_reconciliacion_efecto_neto_witness :
    (([(1, 7, 5)] : Snap).map (·.1)).Nodup
    ∧ (([(1, 7, 8)] : Snap).map (·.1)).Nodup
    ∧ reconciliarStockTrasEditarCompra
        (fun k => if k = 7 then some (⟨10, none, 0⟩ : Producto) else none)
        [(1, 7, 5)] [(1, 7, 8)]
        = ((reconciliarStockTrasEditarCompra
            (fun k => if k = 7 then some (⟨10, none, 0⟩ : Producto) else none)
            [(1, 7, 5)] [(1, 7, 8)]).1, none)
    ∧ ((reconciliarStockTrasEditarCompra
        (fun k => if k = 7 then some (⟨10, none, 0⟩ : Producto) else none)
        [(1, 7, 5)] [(1, 7, 8)]).1 7).map Producto.stock
        = ((fun k => if k = 7 then some (⟨10, none, 0⟩ : Producto) else none) 7).map
            fun q => q.stock + (cantidadDe 7 [(1, 7, 8)] - cantidadDe 7 [(1, 7, 5)]) :=
  ⟨by decide, by decide, rfl,
    claim_C1_reconciliacion_efecto_neto.1 [(1, 7, 5)] [(1, 7, 8)]
      (fun k => if k = 7 then some (⟨10, none, 0⟩ : Producto) else none) _
      (by decide) (by decide) rfl 7⟩

/-- Claim C6: if any individual adjustment inside a reconciliation run fails,
the whole reconciliation aborts with that error and the returned product
table is exactly the table before the call — the writes of adjustments that
had already succeeded earlier in the run are discarded by the transaction. -/
theorem claim_C6_reconciliacion_atomica :
    (∀ (st st' : ProdState) (prev cur : Snap) (e : Err),
      reconciliarStockTrasEditarCompra st prev cur = (st', some e) → st' = st)
    ∧ (∀ (st st' : ProdState) (prev cur : Snap) (e : Err),
      reconciliarStockTrasEditarVenta st prev cur = (st', some e) → st' = st) := by
  constructor
  · intro st st' prev cur e h
    exact atomic_error h
  · intro st st' prev cur e h
    exact atomic_error h

theorem claim_C6_reconciliacion_atomica_witness :
    reconciliarStockTrasEditarCompra
      (fun k => if k = 1 then some (⟨5, none, 0⟩ : Producto)
                else if k = 2 then some (⟨0, none, 0⟩ : Producto) else none)
      [(1, 1, 2), (2, 2, 3)] []
      = ((fun k => if k = 1 then some (⟨5, none, 0⟩ : Producto)
                   else if k = 2 then some (⟨0, none, 0⟩ : Producto) else none),
         some Err.validacionStockNegativo)
    ∧ ((runAjustes aplicarDeltaStockSeguroCompra
        (fun k => if k = 1 then some (⟨5, none, 0⟩ : Producto)
                  else if k = 2 then some (⟨0, none, 0⟩ : Producto) else none)
        (reconciliarAjustesCompra [(1, 1, 2), (2, 2, 3)] [])).1 1).map Producto.stock
        = some 3
    ∧ (reconciliarStockTrasEditarCompra
        (fun k => if k = 1 then some (⟨5, none, 0⟩ : Producto)
                  else if k = 2 then some (⟨0, none, 0⟩ : Producto) else none)
        [(1, 1, 2), (2, 2, 3)] []).1
        = (fun k => if k = 1 then some (⟨5, none, 0⟩ : Producto)
                    else if k = 2 then some (⟨0, none, 0⟩ : Producto) else none) :=
  ⟨rfl, rfl,
    claim_C6_reconciliacion_atomica.1 _ _ [(1, 1, 2), (2, 2, 3)] []
      Err.validacionStockNegativo rfl⟩

theorem crearCompra_stock_unaLinea {c : Compra} {l : CompraLinea} {st : ProdState}
    {p : Producto} (hl : c.lineas = [l]) (hp : st l.producto_id = some p)
    (hpos : 0 ≤ p.stock) (hcant : l.cantidad ≠ 0) :
    (aplicarStockDespuesDeCrearCompra st c).2 = none
    ∧ ((aplicarStockDespuesDeCrearCompra st c).1 l.producto_id).map Producto.stock
        = some (p.stock + (l.cantidad : ℤ)) := by
  have hd : (l.cantidad : ℤ) ≠ 0 := by exact_mod_cast hcant
  have hneg : ¬ p.stock + (l.cantidad : ℤ) < 0 := by
    have : (0 : ℤ) ≤ (l.cantidad : ℤ) := Int.ofNat_nonneg _
    omega
  have h1 := compra_delta_aplicado hd hp hneg
  have hst1 : (updateProducto st l.producto_id
      fun q => { q with stock := q.stock + (l.cantidad : ℤ) }) l.producto_id
      = some { p with stock := p.stock + (l.cantidad : ℤ) } := by
    simp [updateProducto, hp]
  have hlin0 : aplicarStockLineaCompra st l
      = (updateProducto (updateProducto st l.producto_id
          fun q => { q with stock := q.stock + (l.cantidad : ℤ) }) l.producto_id
          fun q => { q with
            precio_compra := l.precio_unitario,
            stock_minimo :=
              if (p.stock + (l.cantidad : ℤ)) * 9 / 10 > p.stock_minimo.getD 0
              then some ((p.stock + (l.cantidad : ℤ)) * 9 / 10)
              else p.stock_minimo },
         none) := by
    unfold aplicarStockLineaCompra
    rw [h1]
    dsimp only
    rw [hst1]
  obtain ⟨nm, hlin⟩ : ∃ nm, aplicarStockLineaCompra st l
      = (updateProducto (updateProducto st l.producto_id
          fun q => { q with stock := q.stock + (l.cantidad : ℤ) }) l.producto_id
          fun q => { q with precio_compra := l.precio_unitario, stock_minimo := nm },
         none) := ⟨_, hlin0⟩
  have hloop : aplicarStockCrearCompraLoop st [l]
      = (updateProducto (updateProducto st l.producto_id
          fun q => { q with stock := q.stock + (l.cantidad : ℤ) }) l.producto_id
          fun q => { q with precio_compra := l.precio_unitario, stock_minimo := nm },
         none) := by
    unfold aplicarStockCrearCompraLoop
    rw [hlin]
    rfl
  have hfin : aplicarStockDespuesDeCrearCompra st c
      = (updateProducto (updateProducto st l.producto_id
          fun q => { q with stock := q.stock + (l.cantidad : ℤ) }) l.producto_id
          fun q => { q with precio_compra := l.precio_unitario, stock_minimo := nm },
         none) := by
    unfold aplicarStockDespuesDeCrearCompra atomic
    rw [hl]
    dsimp only
    rw [hloop]
  rw [hfin]
  refine ⟨rfl, ?_⟩
  simp [updateProducto, hp]

/-- Claim C4 (Scenario A): for a purchase order with one line of quantity 10
at unit price 2.50, a 10 per cent discount and the fractional tax rate 0.23,
the totals recomputation persists subtotal 25.00, discount 2.50, tax 5.18
(5.175 rounded half-up) and total 27.68; and the create-time stock effect on
any existing product row increases its stock by exactly 10 and succeeds. -/
theorem claim_C4_escenario_A :
    (calcularYGuardarTotalesCompra ⟨[⟨1, 1, 10, 2.5⟩], 10, 0, 0, 0, 0⟩
        (some 0.23)).subtotal = 25
    ∧ (calcularYGuardarTotalesCompra ⟨[⟨1, 1, 10, 2.5⟩], 10, 0, 0, 0, 0⟩
        (some 0.23)).descuento_total = 2.5
    ∧ (calcularYGuardarTotalesCompra ⟨[⟨1, 1, 10, 2.5⟩], 10, 0, 0, 0, 0⟩
        (some 0.23)).impuesto_total = 5.18
    ∧ (calcularYGuardarTotalesCompra ⟨[⟨1, 1, 10, 2.5⟩], 10, 0, 0, 0, 0⟩
        (some 0.23)).total = 27.68
    ∧ (∀ (st : ProdState) (p : Producto), st 1 = some p → 0 ≤ p.stock →
        (aplicarStockDespuesDeCrearCompra st ⟨[⟨1, 1, 10, 2.5⟩], 10, 0, 0, 0, 0⟩).2 = none
        ∧ ((aplicarStockDespuesDeCrearCompra st
            ⟨[⟨1, 1, 10, 2.5⟩], 10, 0, 0, 0, 0⟩).1 1).map Producto.stock
            = some (p.stock + 10)) := by
  refine ⟨?_, ?_, ?_, ?_, ?_⟩
  · norm_num [calcularYGuardarTotalesCompra, roundHalfUp2]
  · norm_num [calcularYGuardarTotalesCompra, roundHalfUp2]
  · norm_num [calcularYGuardarTotalesCompra, roundHalfUp2]
  · norm_num [calcularYGuardarTotalesCompra, roundHalfUp2]
  · intro st p hp hpos
    exact crearCompra_stock_unaLinea (l := ⟨1, 1, 10, 2.5⟩) rfl hp hpos (by norm_num)

theorem claim_C4_escenario_A_witness :
    ((fun k => if k = 1 then some (⟨4, none, 0⟩ : Producto) else none) 1
        = some (⟨4, none, 0⟩ : Producto))
    ∧ (0 : ℤ) ≤ (4 : ℤ)
    ∧ ((aplicarStockDespuesDeCrearCompra
        (fun k => if k = 1 then some (⟨4, none, 0⟩ : Producto) else none)
        ⟨[⟨1, 1, 10, 2.5⟩], 10, 0, 0, 0, 0⟩).1 1).map Producto.stock
        = some ((4 : ℤ) + 10) :=
  ⟨rfl, by norm_num,
    (claim_C4_escenario_A.2.2.2.2
      (fun k => if k = 1 then some (⟨4, none, 0⟩ : Producto) else none)
      ⟨4, none, 0⟩ rfl (by norm_num)).2⟩

/-- `invariantMinimo` for every row present in the table. -/
def invariantMinimoEstado (st : ProdState) : Prop :=
  ∀ k p, st k = some p → invariantMinimo p

theorem updateProducto_inv {P : Producto → Prop} {st : ProdState} {pid : ℕ}
    {f : Producto → Producto}
    (hinv : ∀ k p, st k = some p → P p)
    (hf : ∀ p, st pid = some p → P p → P (f p)) :
    ∀ k q, (updateProducto st pid f) k = some q → P q := by
  intro k q hk
  unfold updateProducto at hk
  by_cases hk1 : k = pid
  · rw [if_pos hk1] at hk
    rcases hp : st k with _ | p
    · rw [hp] at hk
      cases hk
    · rw [hp] at hk
      simp only [Option.map_some', Option.some_inj] at hk
      have hp2 : st pid = some p := hk1 ▸ hp
      exact hk ▸ hf p hp2 (hinv k p hp)
  · rw [if_neg hk1] at hk
    exact hinv k q hk

theorem venta_preserva_minimo (st : ProdState) (pid : ℕ) (dOpt : Option ℤ)
    (hinv : invariantMinimoEstado st) :
    invariantMinimoEstado (aplicarDeltaStockSeguroVenta st pid dOpt).1 := by
  rcases dOpt with _ | d
  · rw [venta_delta_absent]; exact hinv
  by_cases hd : d = 0
  · subst hd; rw [venta_delta_cero]; exact hinv
  rcases hp : st pid with _ | p
  · rw [venta_delta_noExiste hd hp]; exact hinv
  by_cases hneg : p.stock + d < 0
  · rw [venta_delta_insuficiente hd hp hneg]; exact hinv
  rcases hm : p.stock_minimo with _ | m
  · rw [venta_delta_sinMinimo hd hp hneg (by rw [hm]; trivial)]
    apply updateProducto_inv hinv
    intro q hq _
    have hqp : q = p := Option.some.inj ((hp ▸ hq : (some p : Option Producto) = some q)).symm
    subst hqp
    intro m' hm'
    dsimp only at hm'
    rw [hm] at hm'
    cases hm'
  by_cases hlt : p.stock + d < m
  · by_cases hd0 : d < 0
    · rw [venta_delta_soft hd0 hp hneg hm hlt]
      apply updateProducto_inv hinv
      intro q hq _
      have hqp : q = p := Option.some.inj ((hp ▸ hq : (some p : Option Producto) = some q)).symm
      subst hqp
      intro m' hm'
      dsimp only at hm'
      rw [hm] at hm'
      simp only [Option.map_some', Option.some_inj] at hm'
      dsimp only
      omega
    · rw [venta_delta_bajoMinimo_dura hd hd0 hp hneg hm hlt]
      exact hinv
  · rw [venta_delta_sinMinimo hd hp hneg (by rw [hm]; exact hlt)]
    apply updateProducto_inv hinv
    intro q hq hP
    have hqp : q = p := Option.some.inj ((hp ▸ hq : (some p : Option Producto) = some q)).symm
    subst hqp
    intro m' hm'
    dsimp only at hm'
    rw [hm] at hm'
    simp only [Option.some_inj] at hm'
    dsimp only
    omega

theorem compra_preserva_inv_nonneg (st : ProdState) (pid : ℕ) (d : ℤ) (hd0 : 0 ≤ d)
    (hinv : invariantEstado st) :
    invariantEstado (aplicarDeltaStockSeguroCompra st pid (some d)).1 := by
  by_cases hd : d = 0
  · subst hd; rw [compra_delta_cero]; exact hinv
  rcases hp : st pid with _ | p
  · rw [compra_delta_noExiste hd hp]; exact hinv
  by_cases hneg : p.stock + d < 0
  · rw [compra_delta_negativo_sin_mutacion hd hp hneg]; exact hinv
  rw [compra_delta_aplicado hd hp hneg]
  apply updateProducto_inv hinv
  intro q hq hP
  have hqp : q = p := Option.some.inj ((hp ▸ hq : (some p : Option Producto) = some q)).symm
  subst hqp
  constructor
  · dsimp only
    omega
  · intro m' hm'
    dsimp only at hm'
    have := hP.2 m' hm'
    dsimp only
    omega

theorem runAjustes_preserva (P : ProdState → Prop)
    (prim : ProdState → ℕ → Option ℤ → ProdState × Option Err)
    (hstep : ∀ st pid d, P st → P (prim st pid (some d)).1) :
    ∀ (ajustes : List (ℕ × ℤ)) (st : ProdState), P st → P (runAjustes prim st ajustes).1 := by
  intro ajustes
  induction ajustes with
  | nil => intro st h; exact h
  | cons a rest ih =>
    intro st h
    rcases a with ⟨pid, d⟩
    unfold runAjustes
    rcases hp : prim st pid (some d) with ⟨st1, e1⟩
    have h1 : P st1 := by
      have := hstep st pid d h
      rw [hp] at this
      exact this
    cases e1 with
    | some e => exact h1
    | none => exact ih st1 h1

theorem atomic_preserva (P : ProdState → Prop) (f : ProdState → ProdState × Option Err)
    (hf : ∀ st, P st → P (f st).1) :
    ∀ st, P st → P (atomic f st).1 := by
  intro st h
  unfold atomic
  rcases hr : f st with ⟨st1, e1⟩
  cases e1 with
  | some e => exact h
  | none =>
    have := hf st h
    rw [hr] at this
    exact this

theorem lineaCompra_preserva (st : ProdState) (l : CompraLinea)
    (hinv : invariantEstado st) :
    invariantEstado (aplicarStockLineaCompra st l).1 := by
  unfold aplicarStockLineaCompra
  rcases hr : aplicarDeltaStockSeguroCompra st l.producto_id (some (l.cantidad : ℤ))
    with ⟨st1, e1⟩
  have h1 : invariantEstado st1 := by
    have := compra_preserva_inv_nonneg st l.producto_id (l.cantidad : ℤ)
      (Int.ofNat_nonneg _) hinv
    rw [hr] at this
    exact this
  cases e1 with
  | some e => exact h1
  | none =>
    dsimp only
    rcases hq : st1 l.producto_id with _ | producto
    · exact h1
    · dsimp only
      apply updateProducto_inv h1
      intro q hq2 hP
      have hqp : q = producto :=
        Option.some.inj ((hq ▸ hq2 : (some producto : Option Producto) = some q)).symm
      subst hqp
      have hq0 : 0 ≤ q.stock := hP.1
      constructor
      · exact hP.1
      · intro m' hm'
        dsimp only at hm' ⊢
        by_cases hc : q.stock * 9 / 10 > q.stock_minimo.getD 0
        · rw [if_pos hc] at hm'
          have : m' = q.stock * 9 / 10 := (Option.some.inj hm').symm
          omega
        · rw [if_neg hc] at hm'
          exact hP.2 m' hm'

theorem loopCompra_preserva :
    ∀ (ls : List CompraLinea) (st : ProdState), invariantEstado st →
      invariantEstado (aplicarStockCrearCompraLoop st ls).1 := by
  intro ls
  induction ls with
  | nil => intro st h; exact h
  | cons l rest ih =>
    intro st h
    unfold aplicarStockCrearCompraLoop
    rcases hr : aplicarStockLineaCompra st l with ⟨st1, e1⟩
    have h1 : invariantEstado st1 := by
      have := lineaCompra_preserva st l h
      rw [hr] at this
      exact this
    cases e1 with
    | some e => exact h1
    | none => exact ih st1 h1

/-- Claim C7 counterexample: a purchase-edit reconciliation that lowers a
line quantity from 10 to 5 on a product with stock 10 and stock_minimo 9
succeeds and leaves stock 5 with stock_minimo still 9 — the purchase-side
primitive has no minimum-aware branch, so the declared constraint
`stock_minimo ≤ stock` is violated even though it held before the call. -/
theorem claim_C7_invariante_minimo_counterexample :
    (reconciliarStockTrasEditarCompra
      (fun k => if k = 1 then some (⟨10, some 9, 0⟩ : Producto) else none)
      [(1, 1, 10)] [(1, 1, 5)]).2 = none
    ∧ (reconciliarStockTrasEditarCompra
      (fun k => if k = 1 then some (⟨10, some 9, 0⟩ : Producto) else none)
      [(1, 1, 10)] [(1, 1, 5)]).1 1 = some (⟨5, some 9, 0⟩ : Producto)
    ∧ invariantMinimo (⟨10, some 9, 0⟩ : Producto)
    ∧ ¬ invariantMinimo (⟨5, some 9, 0⟩ : Producto) := by
  refine ⟨rfl, rfl, ?_, ?_⟩
  · intro m hm
    have h9 : (9 : ℤ) = m := Option.some.inj hm
    rw [← h9]
    norm_num
  · intro h
    have h9 := h 9 rfl
    norm_num at h9

/-- Claim C7 amended: the minimum-stock invariant (stock_minimo null or at
most stock) is preserved by the sale-side primitive under every input and
outcome, hence by the sale-side reconciliation and sale-create flows; the
purchase-side primitive preserves the full row constraints for non-negative
deltas, hence the purchase create flow (stock addition, reference cost and
the 90 per cent minimum update) preserves them too.  Only a purchase-side
stock-lowering delta (a purchase edit that shrinks or removes a line) can
break the invariant, as the counterexample shows. -/
theorem claim_C7_invariante_minimo_amended :
    (∀ (st : ProdState) (pid : ℕ) (dOpt : Option ℤ),
      invariantMinimoEstado st →
      invariantMinimoEstado (aplicarDeltaStockSeguroVenta st pid dOpt).1)
    ∧ (∀ (st : ProdState) (prev cur : Snap),
      invariantMinimoEstado st →
      invariantMinimoEstado (reconciliarStockTrasEditarVenta st prev cur).1)
    ∧ (∀ (st : ProdState) (venta : Venta),
      invariantMinimoEstado st →
      invariantMinimoEstado (aplicarStockDespuesDeCrearVenta st venta).1)
    ∧ (∀ (st : ProdState) (pid : ℕ) (d : ℤ), 0 ≤ d →
      invariantEstado st →
      invariantEstado (aplicarDeltaStockSeguroCompra st pid (some d)).1)
    ∧ (∀ (st : ProdState) (compra : Compra),
      invariantEstado st →
      invariantEstado (aplicarStockDespuesDeCrearCompra st compra).1) := by
  refine ⟨venta_preserva_minimo, ?_, ?_, ?_, ?_⟩
  · intro st prev cur hinv
    exact atomic_preserva invariantMinimoEstado _
      (fun s hs => runAjustes_preserva invariantMinimoEstado
        aplicarDeltaStockSeguroVenta
        (fun s2 pid d h2 => venta_preserva_minimo s2 pid (some d) h2)
        (reconciliarAjustesVenta prev cur) s hs) st hinv
  · intro st venta hinv
    exact atomic_preserva invariantMinimoEstado _
      (fun s hs => runAjustes_preserva invariantMinimoEstado
        aplicarDeltaStockSeguroVenta
        (fun s2 pid d h2 => venta_preserva_minimo s2 pid (some d) h2)
        (venta.lineas.map fun l => (l.producto_id, -(l.cantidad : ℤ))) s hs) st hinv
  · intro st pid d hd0 hinv
    exact compra_preserva_inv_nonneg st pid d hd0 hinv
  · intro st compra hinv
    exact atomic_preserva invariantEstado _
      (fun s hs => loopCompra_preserva compra.lineas s hs) st hinv

theorem claim_C7_invariante_minimo_amended_witness :
    invariantMinimoEstado
      (fun k => if k = 1 then some (⟨10, some 8, 0⟩ : Producto) else none)
    ∧ invariantMinimoEstado
      ((aplicarDeltaStockSeguroVenta
        (fun k => if k = 1 then some (⟨10, some 8, 0⟩ : Producto) else none)
        1 (some (-5))).1) := by
  have h0 : invariantMinimoEstado
      (fun k => if k = 1 then some (⟨10, some 8, 0⟩ : Producto) else none) := by
    intro k p hk
    by_cases hk1 : k = 1
    · subst hk1
      have hk2 : some (⟨10, some 8, 0⟩ : Producto) = some p := hk
      obtain rfl : (⟨10, some 8, 0⟩ : Producto) = p := Option.some.inj hk2
      intro m hm
      have h8 : (8 : ℤ) = m := Option.some.inj hm
      rw [← h8]
      show (8 : ℤ) ≤ 10
      norm_num
    · rw [show (fun k => if k = 1 then some (⟨10, some 8, 0⟩ : Producto) else none) k
          = (if k = 1 then some (⟨10, some 8, 0⟩ : Producto) else none) from rfl,
        if_neg hk1] at hk
      cases hk
  exact ⟨h0, claim_C7_invariante_minimo_amended.1
    (fun k => if k = 1 then some (⟨10, some 8, 0⟩ : Producto) else none)
    1 (some (-5)) h0⟩

/-- Claim C10: when the stock reconciliation raises during an order edit, the
edit still completes — the view swallows the exception, the persisted header
and line changes are kept (the recomputed order keeps exactly the submitted
line set), the totals step runs exactly as it would have without the failure,
and a success redirect is returned — while the product table equals the table
before the reconciliation call, because the reconciliation transaction rolled
its own writes back. -/
theorem claim_C10_edicion_tolerante :
    (∀ (st : ProdState) (compra : Compra) (prev : Snap) (impuestoInput : TaxInput) (e : Err),
      (reconciliarStockTrasEditarCompra st prev (snapDeLineasCompra compra.lineas)).2
        = some e →
      editarCompraPost st compra prev impuestoInput
        = (st, pasoTotalesCompra compra impuestoInput, true)
      ∧ (pasoTotalesCompra compra impuestoInput).lineas = compra.lineas)
    ∧ (∀ (st : ProdState) (venta : Venta) (prev : Snap) (impuestoInput : TaxInput) (e : Err),
      (reconciliarStockTrasEditarVenta st prev (snapDeLineasVenta venta.lineas)).2
        = some e →
      editarVentaPost st venta prev impuestoInput
        = (st, pasoTotalesVenta venta impuestoInput, true)
      ∧ (pasoTotalesVenta venta impuestoInput).lineas = venta.lineas) := by
  constructor
  · intro st compra prev impuestoInput e h2
    have hfull : reconciliarStockTrasEditarCompra st prev (snapDeLineasCompra compra.lineas)
        = ((reconciliarStockTrasEditarCompra st prev (snapDeLineasCompra compra.lineas)).1,
           some e) := by
      rw [← h2]
    have hst := atomic_error hfull
    constructor
    · unfold editarCompraPost
      dsimp only
      rw [hst]
    · rfl
  · intro st venta prev impuestoInput e h2
    have hfull : reconciliarStockTrasEditarVenta st prev (snapDeLineasVenta venta.lineas)
        = ((reconciliarStockTrasEditarVenta st prev (snapDeLineasVenta venta.lineas)).1,
           some e) := by
      rw [← h2]
    have hst := atomic_error hfull
    constructor
    · unfold editarVentaPost
      dsimp only
      rw [hst]
    · cases impuestoInput <;> rfl

theorem claim_C10_edicion_tolerante_witness :
    (reconciliarStockTrasEditarCompra
      (fun k => if k = 1 then some (⟨0, none, 0⟩ : Producto) else none)
      [(1, 1, 5)]
      (snapDeLineasCompra (⟨[], 0, 0, 0, 0, 0⟩ : Compra).lineas)).2
      = some Err.validacionStockNegativo
    ∧ editarCompraPost
        (fun k => if k = 1 then some (⟨0, none, 0⟩ : Producto) else none)
        ⟨[], 0, 0, 0, 0, 0⟩ [(1, 1, 5)] (TaxInput.numeric 23)
        = ((fun k => if k = 1 then some (⟨0, none, 0⟩ : Producto) else none),
           pasoTotalesCompra ⟨[], 0, 0, 0, 0, 0⟩ (TaxInput.numeric 23), true) :=
  ⟨rfl,
    (claim_C10_edicion_tolerante.1
      (fun k => if k = 1 then some (⟨0, none, 0⟩ : Producto) else none)
      ⟨[], 0, 0, 0, 0, 0⟩ [(1, 1, 5)] (TaxInput.numeric 23)
      Err.validacionStockNegativo rfl).1⟩
